import Mathlib

/-!
Verification development for the call/new expression checker
(crates/stc_ts_file_analyzer/src/analyzer/expr/call_new.rs).

The definitions below are a shallow embedding of the functions of that
file over a fragment of the external type algebra.  Components that the
source consumes from neighbouring crates (the type algebra itself,
assignability, generic inference, iterator-element extraction, the
scope/fact store) are modelled from the specification's contracts; every
such definition carries a doc comment starting with "Modelled from the
spec:".  All other definitions are translated from the Rust source.
-/

namespace Stc

/-- Binding patterns (RPat) as used by the call checker: identifiers
(carrying whether the identifier is the synthetic this binding and its
optionality flag), array and object destructuring patterns, rest
patterns (carrying whether a type annotation is present and the inner
pattern), and the remaining inert pattern forms. -/
inductive Pat where
  | ident (isThis : Bool) (optional : Bool)
  | arrayP (optional : Bool) (elems : List (Option Pat))
  | objectP (optional : Bool)
  | rest (hasTypeAnn : Bool) (arg : Pat)
  | assignP
  | invalidP
  | exprP
deriving Repr

/-- The fragment of the type algebra (stc_ts_types::Type) exercised by
the verified properties.  Keyword types, type parameters, opaque nominal
types, tuples (whose element types may be Rest or Optional wrappers),
arrays, function types, and class definitions / class instances.
Reference, query, interface, union, intersection, literal and predicate
nodes do not occur in the embedded fragment, so normalization (which
resolves references to structural form) is the identity on it. -/
inductive Ty where
  | any
  | unknown
  | never
  | voidT
  | number
  | string
  | boolean
  | param (name : String)
  | named (name : String)
  | tuple (elems : List Ty)
  | restE (ty : Ty)
  | optionalE (ty : Ty)
  | array (elem : Ty)
  | fn (typeParams : Option (List String)) (params : List (Pat × Bool × Ty)) (ret : Ty)
  | classDef (name : String) (isAbstract : Bool)
  | classInstance (name : String) (isAbstract : Bool)
deriving Repr

/-- A formal parameter (ty::FnParam): binding pattern, required flag and
declared type. -/
abbrev FnParam := Pat × Bool × Ty

def FnParam.pat (p : FnParam) : Pat := p.1

def FnParam.required (p : FnParam) : Bool := p.2.1

def FnParam.ty (p : FnParam) : Ty := p.2.2

/-- Modelled from the spec: assignability failures produced by the
external subtype/assignability checker are opaque to this engine; they
record the parameter (left) and argument (right) types involved. -/
inductive AErr where
  | assignFailed (param : Ty) (arg : Ty)
deriving Repr

/-- The error kinds (stc_ts_errors::ErrorKind) produced by the embedded
functions.  Source spans are kept only where the verified properties
mention them (as natural numbers standing for positions). -/
inductive ErrKind where
  | expectedNArgsButGotM (min : Nat) (max : Option Nat)
  | expectedAtLeastNArgsButGotM (min : Nat)
  | expectedAtLeastNArgsButGotMOrMore (min : Nat)
  | typeParameterCountMismatch
  | wrongArgType (span : Nat) (inner : AErr)
  | spreadMustBeTupleOrPassedToRest (span : Nat)
  | mustHaveSymbolIterator (span : Nat)
  | noMatchingOverload
  | noCallSignature
  | noNewSignature
  | unknownCallee
  | cannotCreateInstanceOfAbstractClass
  | superCannotUseTypeArgs
  | anyTypeUsedAsCalleeWithTypeArgs
deriving Repr

/-- The mutable analyzer state visible to the embedded functions: the
diagnostic storage, the per-call scope's arity-unknown flag and this
binding, the super-called mark, and two instrumentation counters (ghost
fields: they are incremented at the validator entry and at the guarded
re-evaluation site, and are never read by the embedded code). -/
structure St where
  diags : List ErrKind := []
  is_call_arg_count_unknown : Bool := false
  this? : Option Ty := none
  super_called : Bool := false
  validator_entries : Nat := 0
  reeval_count : Nat := 0
deriving Repr

/-- The context flags (analyzer::Ctx) read by the embedded functions. -/
structure Ctx where
  reevaluating_call_or_new : Bool := false
  is_calling_iife : Bool := false
  is_instantiating_class : Bool := false
deriving Repr

/-- An argument's resolved type plus an optional spread marker (carrying
the span of the spread operator) and the argument's span
(ty::TypeOrSpread). -/
structure TypeOrSpread where
  span : Nat
  spread : Option Nat
  ty : Ty
deriving Repr

/-- Append one diagnostic to the storage. -/
def report (s : St) (e : ErrKind) : St :=
  { s with diags := s.diags ++ [e] }

/-- Append a list of diagnostics to the storage. -/
def reportAll (s : St) (es : List ErrKind) : St :=
  { s with diags := s.diags ++ es }

/-- Report the error of a Result non-fatally (ResultExt::report). -/
def reportRes (s : St) (r : Except ErrKind Unit) : St :=
  match r with
  | .ok _ => s
  | .error e => report s e

/-- Modelled from the spec: structural assignability (the external
subtype/assignability checker of the type algebra, spec section 6).  On
the embedded fragment: any-typed and unknown-typed parameters accept
everything, any and never arguments are assignable to everything,
keyword types are assignable to themselves, nominal types by name.
Returns the recorded failure on mismatch. -/
def assign (param arg : Ty) : Except AErr Unit :=
  let ok : Except AErr Unit := .ok ()
  let bad : Except AErr Unit := .error (.assignFailed param arg)
  match param, arg with
  | .any, _ => ok
  | .unknown, _ => ok
  | _, .any => ok
  | _, .never => ok
  | .number, .number => ok
  | .string, .string => ok
  | .boolean, .boolean => ok
  | .voidT, .voidT => ok
  | .named a, .named b => if a = b then ok else bad
  | .classInstance a _, .classInstance b _ => if a = b then ok else bad
  | _, _ => bad

/-- Structural equality on the fragment (swc_common::TypeEq), used by
is_subtype_in_fn_call. -/
def type_eq (a b : Ty) : Bool :=
  match a, b with
  | .any, .any => true
  | .unknown, .unknown => true
  | .never, .never => true
  | .voidT, .voidT => true
  | .number, .number => true
  | .string, .string => true
  | .boolean, .boolean => true
  | .param a, .param b => a = b
  | .named a, .named b => a = b
  | .classDef a x, .classDef b y => a = b && x = y
  | .classInstance a x, .classInstance b y => a = b && x = y
  | _, _ => false

/-- Modelled from the spec: iterator element extraction for spread
arguments (get_iterator_element_type, an external concern).  Strings
iterate as strings, arrays as their element type, the any keyword as
any; other fragment types are not iterable and yield the
must-have-Symbol.iterator error. -/
def get_iterator_element_type (span : Nat) (t : Ty) : Except ErrKind Ty :=
  match t with
  | .string => .ok .string
  | .array e => .ok e
  | .any => .ok .any
  | _ => .error (.mustHaveSymbolIterator span)

mutual

/-- Modelled from the spec: substitution of inferred types for type
parameters (expand_type_params of the external generics module). -/
def expand_type_params (m : List (String × Ty)) : Ty → Ty
  | .param n =>
    match m.find? (fun p => p.1 = n) with
    | some p => p.2
    | none => .param n
  | .tuple es => .tuple (expand_type_params_list m es)
  | .restE t => .restE (expand_type_params m t)
  | .optionalE t => .optionalE (expand_type_params m t)
  | .array e => .array (expand_type_params m e)
  | .fn tps ps ret => .fn tps (expand_type_params_params m ps) (expand_type_params m ret)
  | t => t

def expand_type_params_list (m : List (String × Ty)) : List Ty → List Ty
  | [] => []
  | t :: ts => expand_type_params m t :: expand_type_params_list m ts

def expand_type_params_params (m : List (String × Ty)) : List (Pat × Bool × Ty) → List (Pat × Bool × Ty)
  | [] => []
  | (p, r, t) :: ps => (p, r, expand_type_params m t) :: expand_type_params_params m ps

end

/-- Whether a type is the any keyword (Type::is_any on the fragment). -/
def Ty.is_any : Ty → Bool
  | .any => true
  | _ => false

/-- An argument expression as seen by the call checker: its spread
marker, span, the type the external expression validator produces for
it, and the diagnostics that validation emits (the expression validator
is an external collaborator; its result is carried on the node). -/
structure ArgExprM where
  span : Nat
  spread : Option Nat
  ty : Ty
  vdiags : List ErrKind := []
deriving Repr

/-- Count of required parameters contributed by one binding pattern
(count_required_pat), translated from validate_arg_count's helper: a
rest pattern with a type annotation contributes zero, a rest pattern
destructuring an array pattern contributes one per required element or
hole, the this pattern contributes zero, identifiers/array/object
patterns contribute one unless optional; assign/invalid/expr patterns
contribute zero. -/
def count_required_pat (p : Pat) : Nat :=
  match p with
  | .rest hasTypeAnn arg =>
    if hasTypeAnn then 0
    else
      match arg with
      | .arrayP _ elems =>
        (elems.map (fun v =>
          match v with
          | some (.arrayP false _) => 1
          | some (.objectP false) => 1
          | some (.ident _ _) => 0
          | some _ => 0
          | none => 1)).sum
      | _ => 0
  | .ident true _ => 0
  | .ident false opt => if opt then 0 else 1
  | .arrayP opt _ => if opt then 0 else 1
  | .objectP opt => if opt then 0 else 1
  | .assignP => 0
  | .invalidP => 0
  | .exprP => 0

/-- The adjustment a rest parameter whose declared type is a tuple makes
to the upper arity bound: each non-optional, non-rest element adds one
slot, a rest element makes the bound unbounded, and finally one is
subtracted for the rest binding itself. -/
def tuple_rest_max_adjust (elems : List Ty) (max_param : Option Nat) : Option Nat :=
  let m := elems.foldl (fun m e =>
    match m with
    | none => none
    | some mx =>
      match e with
      | Ty.restE _ => none
      | Ty.optionalE _ => some mx
      | _ => some (mx + 1)) max_param
  match m with
  | some mx => some (mx - 1)
  | none => none

/-- One step of validate_arg_count's min/max loop for a non-rest,
non-this parameter: a trailing required parameter whose declared type
accepts void reduces the minimum by one. -/
def void_min_adjust (nparams : Nat) (index : Nat) (param : FnParam)
    (acc : Nat × Option Nat) : Nat × Option Nat :=
  let (min_param, max_param) := acc
  if param.required then
    if !param.ty.is_any && (assign param.ty Ty.voidT matches Except.ok _)
        && index = nparams - 1 then
      (min_param - 1, max_param)
    else (min_param, max_param)
  else (min_param, max_param)

/-- The minimum/maximum argument-count loop of validate_arg_count: the
minimum starts as the sum of required-parameter counts; a rest parameter
of tuple type adjusts the maximum per element, any other rest parameter
makes it unbounded (and still undergoes the trailing-void check); a this
parameter lowers the maximum by one; any other parameter undergoes the
trailing-void minimum adjustment. -/
def arity_bounds (params : List FnParam) : Nat × Option Nat :=
  let min0 : Nat := (params.map (fun p => count_required_pat p.pat)).sum
  params.enum.foldl (fun acc (ip : Nat × FnParam) =>
    let (index, param) := ip
    match param.pat with
    | .rest _ _ =>
      match param.ty with
      | .tuple elems => (acc.1, tuple_rest_max_adjust elems acc.2)
      | _ => void_min_adjust params.length index param (acc.1, none)
    | .ident true _ => (acc.1, acc.2.map (fun m => m - 1))
    | _ => void_min_adjust params.length index param acc)
    (min0, some params.length)

/-- Arity validation (validate_arg_count): computes the minimum and
maximum argument counts from the parameter list, skips the check when
any argument is spread, relaxes only the upper bound for
immediately-invoked function expressions, and otherwise reports
ExpectedAtLeastNArgsButGotM (unbounded maximum) or ExpectedNArgsButGotM
(bounded).  The arg_types/spread_arg_types parameters of the source are
used only under debug assertions and are omitted; the error span
narrowing to the excess arguments is span bookkeeping and is not
represented. -/
def validate_arg_count (ctx : Ctx) (params : List FnParam) (args : List ArgExprM) :
    Except ErrKind Unit :=
  let bounds := arity_bounds params
  let min_param := bounds.1
  let max_param := bounds.2
  if args.any (fun a => a.spread.isSome) then .ok ()
  else
    let fits_max : Bool :=
      match max_param with
      | some mx => args.length ≤ mx
      | none => true
    let fits_max_some : Bool :=
      match max_param with
      | some mx => args.length ≤ mx
      | none => false
    if min_param ≤ args.length && fits_max then .ok ()
    else if ctx.is_calling_iife && fits_max_some then .ok ()
    else if max_param.isNone then .error (.expectedAtLeastNArgsButGotM min_param)
    else .error (.expectedNArgsButGotM min_param max_param)

/-- Type-argument count validation (validate_type_args_count): when both
a type-parameter list and explicit type arguments are present their
lengths must agree. -/
def validate_type_args_count (type_params : Option (List String))
    (type_args : Option (List Ty)) : Except ErrKind Unit :=
  match type_params, type_args with
  | some tps, some tas =>
    if tps.length ≠ tas.length then .error .typeParameterCountMismatch else .ok ()
  | _, _ => .ok ()

/-- The per-entry loop of spread_args, threading the scope's
arity-unknown flag.  A spread entry whose type normalizes to a tuple is
expanded into one non-spread entry per element (at the spread operator's
span); to the any keyword marks arity unknown and keeps one non-spread
entry of type any; to an array marks arity unknown and keeps the entry
unchanged (spread marker included); otherwise arity is marked unknown
and the entry keeps its spread marker with the iterator element type
(failure to obtain one aborts with the iterator error).  Non-spread
entries pass through unchanged. -/
def spread_args_go : List TypeOrSpread → Bool → Except ErrKind (List TypeOrSpread) × Bool
  | [], flag => (.ok [], flag)
  | arg :: rest, flag =>
    match arg.spread with
    | some spreadSpan =>
      match arg.ty with
      | .tuple elems =>
        let entries := elems.map (fun ty => TypeOrSpread.mk spreadSpan none ty)
        (match spread_args_go rest flag with
         | (.ok tail, flag') => (.ok (entries ++ tail), flag')
         | (.error e, flag') => (.error e, flag'))
      | .any =>
        (match spread_args_go rest true with
         | (.ok tail, flag') => (.ok (TypeOrSpread.mk arg.span none .any :: tail), flag')
         | (.error e, flag') => (.error e, flag'))
      | .array _ =>
        (match spread_args_go rest true with
         | (.ok tail, flag') => (.ok (arg :: tail), flag')
         | (.error e, flag') => (.error e, flag'))
      | other =>
        (match get_iterator_element_type arg.span other with
         | .error e => (.error e, true)
         | .ok elem =>
           match spread_args_go rest true with
           | (.ok tail, flag') =>
             (.ok (TypeOrSpread.mk arg.span arg.spread elem :: tail), flag')
           | (.error e, flag') => (.error e, flag'))
    | none =>
      match spread_args_go rest flag with
      | (.ok tail, flag') => (.ok (arg :: tail), flag')
      | (.error e, flag') => (.error e, flag')

/-- Argument spread preprocessing (spread_args): when no argument is a
spread the list is returned unchanged, otherwise each entry is processed
by the per-entry loop. -/
def spread_args (arg_types : List TypeOrSpread) (flag : Bool) :
    Except ErrKind (List TypeOrSpread) × Bool :=
  if arg_types.any (fun a => a.spread.isSome) then spread_args_go arg_types flag
  else (.ok arg_types, flag)

/-- Index of the rest parameter among the required-or-rest parameters
(the prelude of validate_arg_types): optional non-rest parameters before
it shift the index down. -/
def rest_idx_of (params : List FnParam) : Option Nat :=
  (params.enum.foldl (fun (acc : Option Nat × Nat) (ip : Nat × FnParam) =>
    match ip.2.pat with
    | .rest _ _ => (some (ip.1 - acc.2), acc.2)
    | _ => if ip.2.required then acc else (acc.1, acc.2 + 1))
    ((none : Option Nat), 0)).1

/-- The first loop of validate_arg_types: a spread argument occurring
before the rest parameter is diagnosed (a tuple spread with the
too-few-arguments error, anything else with the
spread-must-be-tuple-or-passed-to-rest error); in generic mode the first
diagnostic aborts the whole validation (second component true). -/
def spread_pre_diags (is_generic : Bool) (rest_idx : Option Nat) :
    List (Nat × TypeOrSpread) → List ErrKind × Bool
  | [] => ([], false)
  | (idx, arg) :: rest =>
    let d : Option ErrKind :=
      if arg.spread.isSome then
        match rest_idx with
        | some ri =>
          if idx < ri then
            some (match arg.ty with
                  | .tuple _ => .expectedAtLeastNArgsButGotMOrMore (ri - 1)
                  | _ => .spreadMustBeTupleOrPassedToRest arg.span)
          else none
        | none => none
      else none
    match d with
    | some e =>
      if is_generic then ([e], true)
      else
        let r := spread_pre_diags is_generic rest_idx rest
        (e :: r.1, r.2)
    | none => spread_pre_diags is_generic rest_idx rest

/-- Assignment of the remaining arguments to the remaining elements of a
rest parameter's tuple type (the inner loop of validate_arg_types'
tuple-rest special case): one argument is consumed per element, each
mismatch is reported at that argument's span, running out of arguments
breaks; in generic mode the first diagnostic aborts (third component
true).  Returns the diagnostics, the unconsumed arguments and the abort
flag. -/
def vat_tuple_tail (is_generic : Bool) :
    List Ty → List TypeOrSpread → List ErrKind × List TypeOrSpread × Bool
  | [], args => ([], args, false)
  | _ :: _, [] => ([], [], false)
  | elemTy :: elems, arg :: args =>
    match assign elemTy arg.ty with
    | .ok _ => vat_tuple_tail is_generic elems args
    | .error e =>
      if is_generic then ([.wrongArgType arg.span e], args, true)
      else
        let r := vat_tuple_tail is_generic elems args
        (.wrongArgType arg.span e :: r.1, r.2.1, r.2.2)

/-- The remaining rest-parameter handling of validate_arg_types once the
tuple-destructuring special case did not apply: a spread argument
directly assignable to the rest parameter's type as a whole is accepted;
a rest parameter of array type assigns the argument to the element type
(mismatch reported at the argument's span); otherwise a successful
whole-type assignment is accepted.  Returns some diagnostics when the
pair was fully handled inside the rest block, none when control falls
through to the general per-argument handling. -/
def vat_rest_tail (param : FnParam) (arg : TypeOrSpread) : Option (List ErrKind) :=
  if arg.spread.isSome && (assign param.ty arg.ty matches Except.ok _) then some []
  else
    match param.ty with
    | .array elemTy =>
      match assign elemTy arg.ty with
      | .ok _ => some []
      | .error e => some [.wrongArgType arg.span e]
    | _ =>
      if assign param.ty arg.ty matches Except.ok _ then some []
      else none

/-- The general per-argument handling of validate_arg_types: a spread
argument first has its iterator element type assigned to the parameter
(failure to obtain an iterator is reported as
spread-must-be-tuple-or-passed-to-rest), then the whole argument type; a
plain argument is assigned directly, with failures wrapped in the
uniform wrong-argument-type diagnostic at the argument's span. -/
def vat_general (param : FnParam) (arg : TypeOrSpread) : List ErrKind :=
  match arg.spread with
  | some _ =>
    match get_iterator_element_type arg.span arg.ty with
    | .ok elem =>
      if assign param.ty elem matches Except.ok _ then []
      else
        match assign param.ty arg.ty with
        | .ok _ => []
        | .error e => [.wrongArgType arg.span e]
    | .error err =>
      match err with
      | .mustHaveSymbolIterator sp => [.spreadMustBeTupleOrPassedToRest sp]
      | _ =>
        match assign param.ty arg.ty with
        | .ok _ => []
        | .error e => [.wrongArgType arg.span e]
  | none =>
    match assign param.ty arg.ty with
    | .ok _ => []
    | .error e => [.wrongArgType arg.span e]

/-- The main parameter/argument loop of validate_arg_types (the this
pattern has already been filtered out of params).  In generic mode the
first diagnostic aborts the loop. -/
def vat_loop (is_generic : Bool) : List FnParam → List TypeOrSpread → List ErrKind
  | [], _ => []
  | _, [] => []
  | param :: ps, arg :: rest =>
    let continueWith : List ErrKind → List ErrKind := fun ds =>
      if is_generic && !ds.isEmpty then ds
      else ds ++ vat_loop is_generic ps rest
    match param.pat with
    | .rest _ _ =>
      (match arg.spread, param.ty with
       | none, .tuple (e0 :: elems) =>
         (match assign e0 arg.ty with
          | .error e =>
            if is_generic then [.wrongArgType arg.span e]
            else .wrongArgType arg.span e :: vat_loop is_generic ps rest
          | .ok _ =>
            let r := vat_tuple_tail is_generic elems rest
            if r.2.2 then r.1
            else r.1 ++ vat_loop is_generic ps r.2.1)
       | _, _ =>
         match vat_rest_tail param arg with
         | some ds => continueWith ds
         | none => continueWith (vat_general param arg))
    | _ => continueWith (vat_general param arg)

/-- Argument/parameter assignability validation (validate_arg_types):
reports diagnostics, does not fail.  Walks parameters (with the leading
this pattern filtered out) and arguments pairwise after diagnosing
spreads occurring before the rest parameter; when is_generic holds the
first diagnostic aborts the walk. -/
def validate_arg_types (params : List FnParam) (spread_arg_types : List TypeOrSpread)
    (is_generic : Bool) : List ErrKind :=
  let rest_idx := rest_idx_of params
  let pre := spread_pre_diags is_generic rest_idx spread_arg_types.enum
  if pre.2 then pre.1
  else
    let params' := params.filter (fun p =>
      match p.pat with
      | .ident true _ => false
      | _ => true)
    pre.1 ++ vat_loop is_generic params' spread_arg_types

/-- Subtype test used to distinguish exact from maybe matches
(is_subtype_in_fn_call): structural equality or an any parameter is a
subtype, an any argument is not, otherwise the assignability check
decides. -/
def is_subtype_in_fn_call (arg param : Ty) : Bool :=
  if type_eq arg param then true
  else if param.is_any then true
  else if arg.is_any then false
  else assign arg param matches Except.ok _

/-- The ordered outcome of checking one candidate against the actual
arguments (ArgCheckResult), declaration order best to worst. -/
inductive ArgCheckResult where
  | Exact
  | MayBe
  | ArgTypeMismatch
  | WrongArgCount
deriving Repr, DecidableEq

/-- The ordinal of an outcome, mirroring the derived Rust ordering
(declaration order). -/
def ArgCheckResult.toNat : ArgCheckResult → Nat
  | .Exact => 0
  | .MayBe => 1
  | .ArgTypeMismatch => 2
  | .WrongArgCount => 3

/-- Strict order on outcomes, mirroring the derived Rust Ord instance. -/
def ArgCheckResult.lt (a b : ArgCheckResult) : Prop := a.toNat < b.toNat

/-- Non-strict order on outcomes. -/
def ArgCheckResult.le (a b : ArgCheckResult) : Prop := a.toNat ≤ b.toNat

/-- The argument loop of check_call_args: parameters whose type is an
unresolved type parameter are skipped (they are inferred, not checked);
an assignment failure yields none (mismatch); otherwise the exact flag
is cleared for arguments that are not subtypes of their parameters. -/
def cca_loop : List (TypeOrSpread × FnParam) → Bool → Option Bool
  | [], exact => some exact
  | (arg, param) :: rest, exact =>
    match param.ty with
    | .param _ => cca_loop rest exact
    | _ =>
      match assign param.ty arg.ty with
      | .error _ => none
      | .ok _ =>
        cca_loop rest (exact && is_subtype_in_fn_call arg.ty param.ty)

/-- Candidate classification (check_call_args): type-argument count or
arity mismatch yields WrongArgCount; an argument not assignable to its
parameter yields ArgTypeMismatch; statically unknown arity or a
non-subtype (merely assignable) argument yields MayBe; otherwise Exact.
The candidate's type parameters are registered in a scope in the source;
the scope store is external and registration has no effect on the
embedded fragment. -/
def check_call_args (ctx : Ctx) (arg_count_unknown : Bool)
    (type_params : Option (List String)) (params : List FnParam)
    (type_args : Option (List Ty)) (args : List ArgExprM)
    (arg_types : List TypeOrSpread) : ArgCheckResult :=
  if !(validate_type_args_count type_params type_args matches Except.ok _) then
    .WrongArgCount
  else if !(validate_arg_count ctx params args matches Except.ok _) then
    .WrongArgCount
  else
    match cca_loop (arg_types.zip params) true with
    | none => .ArgTypeMismatch
    | some exact =>
      if arg_count_unknown || !exact then .MayBe else .Exact

/-- Insertion step of the stable ascending sort by outcome used on the
candidate list. -/
def insert_by_key {α : Type _} (f : α → ArgCheckResult) (x : α) :
    List α → List α
  | [] => [x]
  | y :: ys =>
    if (f y).toNat < (f x).toNat then y :: insert_by_key f x ys
    else x :: y :: ys

/-- Stable ascending sort by outcome (the semantics of the stable
sort_by_key call on the candidate list: the result of a stable sort is
uniquely determined, so insertion sort placing each element before the
later-occurring elements of equal key realizes it). -/
def sort_by_key {α : Type _} (f : α → ArgCheckResult) : List α → List α
  | [] => []
  | x :: xs => insert_by_key f x (sort_by_key f xs)

/-- Options controlling candidate extraction (CallOpts). -/
structure CallOpts where
  disallow_invoking_implicit_constructors : Bool := false
  disallow_optional_object_property : Bool := false
  allow_private_names : Bool := false
  do_not_check_object : Bool := false
deriving Repr

/-- One concrete call or construct signature under consideration
(CallCandidate). -/
structure CallCandidate where
  type_params : Option (List String)
  params : List FnParam
  ret_ty : Ty

/-- Options of the selector (SelectOpts). -/
structure SelectOpts where
  skip_check_for_overloads : Bool := false
deriving Repr

/-- The callee of a call expression: the super keyword or an ordinary
expression, represented by the type the external expression validator
produces for it. -/
inductive CalleeM where
  | superC
  | expr (ty : Ty)

/-- A call or new expression (RCallExpr / RNewExpr) as seen by the
checker: its callee, whether the callee is a function expression
(immediately-invoked form), its arguments and optional explicit type
arguments.  Explicit type arguments are carried already validated as
types. -/
structure CallExprM where
  callee : CalleeM
  calleeIsFnExpr : Bool := false
  args : List ArgExprM
  type_args : Option (List Ty) := none

/-- Whether and how the original expression can be re-validated
(ReevalMode). -/
inductive ReevalMode where
  | call (e : CallExprM)
  | newE (e : CallExprM)
  | noReeval

/-- The extraction kind: construct or call. -/
inductive ExtractKind where
  | New
  | Call
deriving Repr, DecidableEq

/-- The action taken at the guarded re-evaluation site: re-validating
the original call/new expression under the re-evaluating context. -/
def ReevalHandler : Type :=
  Ctx → ReevalMode → Option Ty → St → Except ErrKind Ty × St

/-- The result of generic inference: the substitution map and the set of
type parameters that failed to resolve. -/
structure InferResult where
  types : List (String × Ty)
  errored : List String
deriving Repr

/-- Whether a type is the type parameter with the given name. -/
def isParamNamed (t : Ty) (n : String) : Bool :=
  match t with
  | .param m => m = n
  | _ => false

/-- Modelled from the spec: the external generic-inference module
(infer_arg_types, spec section 6): produces a substitution map from type
parameters to inferred types given parameter/argument type pairs, plus
the set of type-parameter names that failed to resolve.  Explicit type
arguments determine the substitution directly; otherwise each type
parameter is inferred from the first argument whose declared parameter
type is that parameter, and goes to the errored set when no such
argument exists. -/
def infer_arg_types (type_args : Option (List Ty)) (type_params : List String)
    (params : List FnParam) (spread_arg_types : List TypeOrSpread) : InferResult :=
  match type_args with
  | some tas => { types := type_params.zip tas, errored := [] }
  | none =>
    let pairs := params.zip spread_arg_types
    let find1 := fun (n : String) =>
      (pairs.find? (fun pa => isParamNamed pa.1.ty n)).map (fun pa => pa.2.ty)
    { types := type_params.filterMap (fun n => (find1 n).map (fun t => (n, t)))
      errored := type_params.filter (fun n => (find1 n).isNone) }

/-- Modelled from the spec: inference of type parameters from the
declared return type against a contextual annotation
(infer_type_with_types, external inference module). -/
def infer_type_with_types (type_params : List String) (ret_ty : Ty) (ann : Ty) :
    List (String × Ty) :=
  type_params.filterMap (fun n =>
    if isParamNamed ret_ty n then some (n, ann) else none)

/-- Modelled from the spec: substitution of the concrete receiver for
this-type occurrences (expand_this_in_type); the fragment contains no
this types, so the substitution is the identity. -/
def expand_this_in_type (t : Ty) : Ty := t

/-- ReturnTypeSimplifier rewrites only indexed-access nodes and
references over unions, none of which occur in the embedded fragment, so
the visit leaves every fragment type unchanged. -/
def return_type_simplifier (t : Ty) : Ty := t

/-- Modelled from the spec: union/intersection simplification of the
external type algebra (simplify); identity on the fragment. -/
def simplify_external (t : Ty) : Ty := t

/-- ReturnTypeGeneralizer generalizes literal types; the fragment
contains no literal types, so the fold leaves every fragment type
unchanged. -/
def return_type_generalizer (t : Ty) : Ty := t

/-- Modelled from the spec: re-attaches type parameters still required
by the signature shape (add_required_type_params); identity on the
fragment. -/
def add_required_type_params (t : Ty) : Ty := t

/-- add_call_facts records a narrowing in the external scope/fact store
when the return type is a type predicate; the fragment contains no
predicate types, so the result type is returned unchanged. -/
def add_call_facts (t : Ty) : Ty := t

/-- Modelled from the spec: reference/alias expansion (expand); identity
on the structural fragment. -/
def expand_external (t : Ty) : Ty := t

/-- The map defaulting the type parameters of function-typed arguments
to unknown, built when re-evaluating without a contextual annotation. -/
def default_unknown_map (type_ann : Option Ty) (ctx : Ctx)
    (spread_arg_types : List TypeOrSpread) : List (String × Ty) :=
  if type_ann.isNone && ctx.reevaluating_call_or_new then
    spread_arg_types.foldl (fun m at1 =>
      match at1.ty with
      | .fn (some tps) _ _ => m ++ tps.map (fun n => (n, Ty.unknown))
      | _ => m) []
  else []

/-- The argument-patching loop of get_return_type: for each argument
paired with its expanded parameter type, a function-typed parameter
would patch the implicit-any parameters of a function-literal argument
before re-validating it; the fragment's argument expressions are plain,
so in the function-typed case the source's wildcard arm keeps the
argument's type, and in every other case the argument entry is kept
unchanged. -/
def patched_new_args : List ((ArgExprM × TypeOrSpread) × FnParam) → List TypeOrSpread
  | [] => []
  | ((_arg, arg_ty), param) :: rest =>
    match param.ty with
    | .fn _ _ _ => arg_ty :: patched_new_args rest
    | _ => arg_ty :: patched_new_args rest

/-- The spread recomputation on the re-evaluated argument list: tuple
spreads are expanded into one non-spread entry per element, everything
else passes through. -/
def reeval_spread_normalize (new_args : List TypeOrSpread) : List TypeOrSpread :=
  if new_args.any (fun a => a.spread.isSome) then
    new_args.flatMap (fun arg =>
      match arg.spread with
      | some sp =>
        match arg.ty with
        | .tuple elems => elems.map (fun ty => TypeOrSpread.mk sp none ty)
        | _ => [arg]
      | none => [arg])
  else new_args

/-- The continuation of get_return_type's generic path after the guarded
re-evaluation point: append the surplus arguments, recompute spreads,
validate every argument against its instantiated parameter type
(truncating at the first failure since the signature is generic),
default the type parameters the class-instantiation context or the
errored set left unresolved to unknown, expand the return type with the
inferred substitution, simplify, generalize, and apply the
default-unknown map when no contextual annotation exists. -/
def grt_cont (ctx : Ctx) (kind : ExtractKind) (tps : List String)
    (inferred : InferResult) (expanded_param_types : List FnParam)
    (new_args0 : List TypeOrSpread) (arg_types : List TypeOrSpread) (ret_ty : Ty)
    (dmap : List (String × Ty)) (type_ann : Option Ty) (s : St) :
    Except ErrKind Ty × St :=
  let new_args :=
    if arg_types.length > expanded_param_types.length then
      new_args0 ++ arg_types.drop expanded_param_types.length
    else new_args0
  let spread_arg_types := reeval_spread_normalize new_args
  let ret_ty := expand_external ret_ty
  let s := reportAll s (validate_arg_types expanded_param_types spread_arg_types true)
  let inferred_types :=
    if ctx.is_instantiating_class then
      inferred.types ++
        (tps.filter (fun n => (inferred.types.find? (fun p => p.1 = n)).isNone)).map
          (fun n => (n, Ty.unknown))
    else inferred.types
  let inferred_types := inferred_types ++ inferred.errored.map (fun n => (n, Ty.unknown))
  let ty := expand_type_params inferred_types ret_ty
  let ty := return_type_simplifier ty
  let ty := simplify_external ty
  let ty := return_type_generalizer ty
  let ty := add_required_type_params ty
  let ty := if type_ann.isNone then expand_type_params dmap ty else ty
  let ty := if kind = ExtractKind.Call then add_call_facts ty else ty
  (.ok ty, s)

/-- The return-type resolver (get_return_type): substitutes this types,
re-validates arity and type-argument count non-fatally, and either
validates a non-generic signature's arguments and returns its return
type, or runs the generic two-pass pipeline: infer a substitution from
the declared parameter types to the spread argument types, expand the
parameter types, patch function-literal arguments, and on the first pass
(re-evaluating flag clear, re-evaluable expression at hand) set the flag
and re-invoke the original call/new expression validator; otherwise
continue with expansion and validation (grt_cont). -/
def get_return_type_gen (onReeval : ReevalHandler) (ctx : Ctx) (kind : ExtractKind)
    (mode : ReevalMode) (type_params : Option (List String)) (params : List FnParam)
    (ret_ty : Ty) (type_args : Option (List Ty)) (args : List ArgExprM)
    (arg_types spread_arg_types : List TypeOrSpread) (type_ann : Option Ty)
    (s : St) : Except ErrKind Ty × St :=
  let params : List FnParam :=
    params.map (fun p => (p.pat, p.required, expand_this_in_type p.ty))
  let ret_ty := expand_this_in_type ret_ty
  let s := reportRes s (validate_arg_count ctx params args)
  let s := reportRes s (validate_type_args_count type_params type_args)
  match type_params with
  | some tps =>
    let dmap := default_unknown_map type_ann ctx spread_arg_types
    -- the type parameters are registered as opaque bindings in the
    -- external scope store
    let inferred_from_ret : Option (List (String × Ty)) :=
      if ctx.reevaluating_call_or_new then none
      else
        match type_ann with
        | some ann => some (infer_type_with_types tps ret_ty ann)
        | none => none
    let params : List FnParam :=
      match inferred_from_ret with
      | some m => params.map (fun p => (p.pat, p.required, expand_type_params m p.ty))
      | none => params
    let inferred := infer_arg_types type_args tps params spread_arg_types
    let expanded_param_types : List FnParam :=
      params.map (fun p => (p.pat, p.required, expand_type_params inferred.types p.ty))
    let new_args0 := patched_new_args ((args.zip arg_types).zip expanded_param_types)
    if !ctx.reevaluating_call_or_new then
      match mode with
      | .call e =>
        onReeval { ctx with reevaluating_call_or_new := true } (.call e) type_ann
          { s with reeval_count := s.reeval_count + 1 }
      | .newE e =>
        onReeval { ctx with reevaluating_call_or_new := true } (.newE e) type_ann
          { s with reeval_count := s.reeval_count + 1 }
      | .noReeval =>
        grt_cont ctx kind tps inferred expanded_param_types new_args0 arg_types
          ret_ty dmap type_ann s
    else
      grt_cont ctx kind tps inferred expanded_param_types new_args0 arg_types
        ret_ty dmap type_ann s
  | none =>
    let s := reportAll s (validate_arg_types params spread_arg_types false)
    let ret_ty := return_type_simplifier ret_ty
    let ret_ty := add_required_type_params ret_ty
    let ret_ty := if kind = ExtractKind.Call then add_call_facts ret_ty else ret_ty
    (.ok ret_ty, s)

/-- The main shape dispatch of extract: an any callee yields any, an
unknown callee is an error, a function type yields its own signature
(with any as the produced type when constructed with new), and every
other fragment shape has no call or construct signature.  Reference and
query nodes would first be normalized; the fragment is already
structural. -/
def extract_main (onReeval : ReevalHandler) (ctx : Ctx) (mode : ReevalMode) (ty : Ty)
    (kind : ExtractKind) (args : List ArgExprM)
    (arg_types spread_arg_types : List TypeOrSpread) (type_args : Option (List Ty))
    (type_ann : Option Ty) (s : St) : Except ErrKind Ty × St :=
  match ty with
  | .any => (.ok .any, s)
  | .unknown => (.error .unknownCallee, s)
  | .fn ftps fparams fret =>
    if kind = ExtractKind.Call then
      get_return_type_gen onReeval ctx kind mode ftps fparams fret type_args args
        arg_types spread_arg_types type_ann s
    else
      get_return_type_gen onReeval ctx kind mode ftps fparams Ty.any type_args args
        arg_types spread_arg_types type_ann s
  | _ =>
    if kind = ExtractKind.Call then (.error .noCallSignature, s)
    else (.error .noNewSignature, s)

/-- Candidate extraction and invocation for a callee type (extract).
For a construct of a class definition: the scope's this binding is set
to the class instance; an abstract class is rejected fatally when
implicit constructors are disallowed and otherwise reported non-fatally
while still producing the class instance type; the fragment's class
definitions declare no constructors, type parameters or super class, so
a non-abstract class falls through to the implicit default constructor
(a construct with no parameters producing the class instance, under the
class-instantiation context).  Every other shape goes to the main
dispatch. -/
def extract_gen (onReeval : ReevalHandler) (ctx : Ctx) (mode : ReevalMode) (ty : Ty)
    (kind : ExtractKind) (args : List ArgExprM)
    (arg_types spread_arg_types : List TypeOrSpread) (type_args : Option (List Ty))
    (type_ann : Option Ty) (opts : CallOpts) (s : St) : Except ErrKind Ty × St :=
  match kind, ty with
  | .New, .classDef name isAbs =>
    let s := { s with this? := some (.classInstance name isAbs) }
    if isAbs then
      if opts.disallow_invoking_implicit_constructors then
        (.error .noNewSignature, s)
      else
        let s := report s .cannotCreateInstanceOfAbstractClass
        (.ok (.classInstance name isAbs), s)
    else
      if opts.disallow_invoking_implicit_constructors then
        (.error .noNewSignature, s)
      else
        get_return_type_gen onReeval { ctx with is_instantiating_class := true } kind
          mode none [] (.classInstance name isAbs) type_args args arg_types
          spread_arg_types type_ann s
  | _, _ =>
    extract_main onReeval ctx mode ty kind args arg_types spread_arg_types type_args
      type_ann s

/-- Candidate selection (select_and_invoke): classify every candidate,
sort stably by classification (best first), reject as
NoMatchingOverload when the overload check is enabled, more than one
candidate exists and all tie at ArgTypeMismatch or worse, and otherwise
forward the best candidate to the return-type resolver.  Returns none
when there is no candidate. -/
def select_and_invoke_gen (onReeval : ReevalHandler) (ctx : Ctx) (kind : ExtractKind)
    (mode : ReevalMode) (candidates : List CallCandidate) (type_args : Option (List Ty))
    (args : List ArgExprM) (arg_types spread_arg_types : List TypeOrSpread)
    (type_ann : Option Ty) (opts : SelectOpts) (s : St) :
    Except ErrKind (Option Ty) × St :=
  let callable := candidates.map (fun c =>
    (c, check_call_args ctx s.is_call_arg_count_unknown c.type_params c.params
          type_args args arg_types))
  let callable := sort_by_key (fun p => p.2) callable
  if candidates.isEmpty then (.ok none, s)
  else if !opts.skip_check_for_overloads && callable.length > 1 &&
      callable.all (fun p =>
        p.2 matches ArgCheckResult.WrongArgCount | ArgCheckResult.ArgTypeMismatch) then
    (.error .noMatchingOverload, s)
  else
    match callable.head? with
    | none => (.ok none, s)
    | some (c, _) =>
      match get_return_type_gen onReeval ctx kind mode c.type_params c.params c.ret_ty
          type_args args arg_types spread_arg_types type_ann s with
      | (.ok t, s1) => (.ok (some t), s1)
      | (.error err, s1) => (.error err, s1)

/-- Validation of the argument expressions (validate_args): each
argument's type is produced by the external expression validator; the
diagnostics that validation emits are reported to the storage. -/
def validate_args (args : List ArgExprM) : List TypeOrSpread × List ErrKind :=
  (args.map (fun a => TypeOrSpread.mk a.span a.spread a.ty),
   args.flatMap (fun a => a.vdiags))

/-- The call/new expression validator (validate for RCallExpr and
RNewExpr).  A super callee reports SuperCannotUseTypeArgs exactly when
explicit type arguments are present, still validates the arguments,
marks the scope as having called super and produces any (the
enclosing-scope super-reference diagnostics are produced by external
reporters outside the fragment).  An expression callee enters a child
call scope (whose arity-unknown flag starts clear and, together with the
this binding, is restored on exit), flags an any callee used with
explicit type arguments, instantiates a function callee's type
parameters from explicit type arguments, validates and
spread-preprocesses the arguments, and extracts.  The entry counter is
instrumentation. -/
def validate_call_new_gen (onReeval : ReevalHandler) (kind : ExtractKind) (ctx : Ctx)
    (e : CallExprM) (type_ann : Option Ty) (s : St) : Except ErrKind Ty × St :=
  let s := { s with validator_entries := s.validator_entries + 1 }
  match kind, e.callee with
  | .Call, .superC =>
    let s := if e.type_args.isSome then report s .superCannotUseTypeArgs else s
    let va := validate_args e.args
    let s := reportAll s va.2
    let s := { s with super_called := true }
    (.ok .any, s)
  | .New, .superC =>
    -- a new expression's callee cannot be the super keyword
    (.error .noNewSignature, s)
  | _, .expr calleeTy0 =>
    let ctx :=
      if kind = ExtractKind.Call then { ctx with is_calling_iife := e.calleeIsFnExpr }
      else ctx
    let mode : ReevalMode :=
      if kind = ExtractKind.Call then .call e else .newE e
    let parent := s
    let s := { s with is_call_arg_count_unknown := false }
    let s :=
      if calleeTy0.is_any && e.type_args.isSome then
        report s .anyTypeUsedAsCalleeWithTypeArgs
      else s
    let calleeTy :=
      match calleeTy0, e.type_args with
      | .fn (some tps) ps ret, some tas =>
        expand_type_params (tps.zip tas) (.fn (some tps) ps ret)
      | t, _ => t
    let va := validate_args e.args
    let s := reportAll s va.2
    let arg_types := va.1
    match spread_args arg_types s.is_call_arg_count_unknown with
    | (.error err, flag) =>
      let s := { s with is_call_arg_count_unknown := flag }
      (.error err,
       { s with is_call_arg_count_unknown := parent.is_call_arg_count_unknown,
                this? := parent.this? })
    | (.ok spread_arg_types, flag) =>
      let s := { s with is_call_arg_count_unknown := flag }
      let r := extract_gen onReeval ctx mode calleeTy kind e.args arg_types
        spread_arg_types e.type_args type_ann {} s
      (r.1,
       { r.2 with is_call_arg_count_unknown := parent.is_call_arg_count_unknown,
                  this? := parent.this? })

/-- Handler standing for a further re-evaluation.  It is never invoked:
the handler is consulted only when the re-evaluating flag is clear, and
every invocation of this handler happens under a context whose flag is
set. -/
def reevalHalt : ReevalHandler := fun _ _ _ s => (.error .noCallSignature, s)

/-- The re-evaluation action: re-invoke the original call/new expression
validator once, under the context whose re-evaluating flag the caller
has set. -/
def reevalOnce : ReevalHandler := fun ctx mode type_ann s =>
  match mode with
  | .call e => validate_call_new_gen reevalHalt .Call ctx e type_ann s
  | .newE e => validate_call_new_gen reevalHalt .New ctx e type_ann s
  | .noReeval => (.ok .any, s)

/-- The call-expression validator with the guarded single re-evaluation
tied. -/
def validate_rcall_expr (ctx : Ctx) (e : CallExprM) (type_ann : Option Ty) (s : St) :
    Except ErrKind Ty × St :=
  validate_call_new_gen reevalOnce .Call ctx e type_ann s

/-- The new-expression validator with the guarded single re-evaluation
tied. -/
def validate_rnew_expr (ctx : Ctx) (e : CallExprM) (type_ann : Option Ty) (s : St) :
    Except ErrKind Ty × St :=
  validate_call_new_gen reevalOnce .New ctx e type_ann s

/-- Candidate extraction and invocation with the re-evaluation tied. -/
def extract (ctx : Ctx) (mode : ReevalMode) (ty : Ty) (kind : ExtractKind)
    (args : List ArgExprM) (arg_types spread_arg_types : List TypeOrSpread)
    (type_args : Option (List Ty)) (type_ann : Option Ty) (opts : CallOpts) (s : St) :
    Except ErrKind Ty × St :=
  extract_gen reevalOnce ctx mode ty kind args arg_types spread_arg_types type_args
    type_ann opts s

/-- Candidate selection with the re-evaluation tied. -/
def select_and_invoke (ctx : Ctx) (kind : ExtractKind) (mode : ReevalMode)
    (candidates : List CallCandidate) (type_args : Option (List Ty))
    (args : List ArgExprM) (arg_types spread_arg_types : List TypeOrSpread)
    (type_ann : Option Ty) (opts : SelectOpts) (s : St) :
    Except ErrKind (Option Ty) × St :=
  select_and_invoke_gen reevalOnce ctx kind mode candidates type_args args arg_types
    spread_arg_types type_ann opts s

/-- The return-type resolver with the re-evaluation tied. -/
def get_return_type (ctx : Ctx) (kind : ExtractKind) (mode : ReevalMode)
    (type_params : Option (List String)) (params : List FnParam) (ret_ty : Ty)
    (type_args : Option (List Ty)) (args : List ArgExprM)
    (arg_types spread_arg_types : List TypeOrSpread) (type_ann : Option Ty) (s : St) :
    Except ErrKind Ty × St :=
  get_return_type_gen reevalOnce ctx kind mode type_params params ret_ty type_args
    args arg_types spread_arg_types type_ann s

/-- The this-binding frame of call_property: the previous scope this
binding is saved, replaced by the receiver for the duration of the
resolution body (the closure spanning normalization, the shape dispatch,
the Object-member fallback and the property-access fallback of the
source), and restored before returning, whether the body succeeds or
fails. -/
def call_property (receiver : Ty) (body : St → Except ErrKind Ty × St) (s : St) :
    Except ErrKind Ty × St :=
  let old_this := s.this?
  let s := { s with this? := some receiver }
  let r := body s
  (r.1, { r.2 with this? := old_this })

/-! Example signatures and arguments used by the verified properties. -/

/-- The identity signature: declare function id with one type parameter
T, one required parameter x of type T, and return type T. -/
def idFnTy : Ty :=
  Ty.fn (some ["T"]) [(Pat.ident false false, true, Ty.param "T")] (Ty.param "T")

/-- The call id(x) with one argument of type number. -/
def idCallOne : CallExprM :=
  { callee := .expr idFnTy, args := [⟨1, none, Ty.number, []⟩] }

/-- The call id() with no arguments. -/
def idCallZero : CallExprM :=
  { callee := .expr idFnTy, args := [] }

/-- The candidate (x: number) producing A. -/
def candNumA : CallCandidate :=
  ⟨none, [(Pat.ident false false, true, Ty.number)], Ty.named "A"⟩

/-- The candidate (x: string) producing B. -/
def candStrB : CallCandidate :=
  ⟨none, [(Pat.ident false false, true, Ty.string)], Ty.named "B"⟩

/-- The candidate (x: boolean) producing B. -/
def candBoolB : CallCandidate :=
  ⟨none, [(Pat.ident false false, true, Ty.boolean)], Ty.named "B"⟩

/-- A number-typed argument expression at span 0. -/
def argNum : ArgExprM := ⟨0, none, Ty.number, []⟩

/-- A string-typed argument expression at span 0. -/
def argStr : ArgExprM := ⟨0, none, Ty.string, []⟩

/-- A number-typed argument entry at span 0. -/
def tosNum : TypeOrSpread := ⟨0, none, Ty.number⟩

/-- A string-typed argument entry at span 0. -/
def tosStr : TypeOrSpread := ⟨0, none, Ty.string⟩

/-- The parameter list (a: T, b?: T). -/
def paramsOptPair : List FnParam :=
  [(Pat.ident false false, true, Ty.param "T"),
   (Pat.ident false true, false, Ty.param "T")]

/-- The parameter list (a: T, ...rest: T[]). -/
def paramsRest : List FnParam :=
  [(Pat.ident false false, true, Ty.param "T"),
   (Pat.rest true (Pat.ident false false), true, Ty.array (Ty.param "T"))]

/-- The parameter list (...args: [string, number]). -/
def tupleRestParams : List FnParam :=
  [(Pat.rest true (Pat.ident false false), true, Ty.tuple [Ty.string, Ty.number])]

/-! Counter-preservation lemmas for the state helpers. -/

@[simp] theorem report_validator_entries (s : St) (e : ErrKind) :
    (report s e).validator_entries = s.validator_entries := rfl

@[simp] theorem report_reeval_count (s : St) (e : ErrKind) :
    (report s e).reeval_count = s.reeval_count := rfl

@[simp] theorem reportAll_validator_entries (s : St) (es : List ErrKind) :
    (reportAll s es).validator_entries = s.validator_entries := rfl

@[simp] theorem reportAll_reeval_count (s : St) (es : List ErrKind) :
    (reportAll s es).reeval_count = s.reeval_count := rfl

@[simp] theorem reportRes_validator_entries (s : St) (r : Except ErrKind Unit) :
    (reportRes s r).validator_entries = s.validator_entries := by
  cases r <;> rfl

@[simp] theorem reportRes_reeval_count (s : St) (r : Except ErrKind Unit) :
    (reportRes s r).reeval_count = s.reeval_count := by
  cases r <;> rfl

/-- C9: call_property leaves the scope's this binding unchanged on every
exit path: for every resolution body (in particular the source's
closure, whether it succeeds or returns an error) and every starting
state, the state returned by call_property carries the original this
binding. -/
theorem c9_call_property_restores_this (receiver : Ty)
    (body : St → Except ErrKind Ty × St) (s : St) :
    ((call_property receiver body s).2).this? = s.this? := by
  simp [call_property]

/-- C10: validating a call whose callee is the super keyword always
produces the any type (never reaching candidate extraction or a
no-call-signature error), reports SuperCannotUseTypeArgs exactly when
explicit type arguments are present, still validates the arguments
(their validation diagnostics are appended after it), and marks the
scope as having called super. -/
theorem c10_super_call (ctx : Ctx) (isFn : Bool) (args : List ArgExprM)
    (targs : Option (List Ty)) (ann : Option Ty) (s : St) :
    validate_rcall_expr ctx ⟨CalleeM.superC, isFn, args, targs⟩ ann s =
      (Except.ok Ty.any,
       { s with
           validator_entries := s.validator_entries + 1,
           diags := (s.diags ++
               (if targs.isSome then [ErrKind.superCannotUseTypeArgs] else [])) ++
             args.flatMap (fun a => a.vdiags),
           super_called := true }) := by
  cases targs <;>
    simp [validate_rcall_expr, validate_call_new_gen, report, reportAll, validate_args]

/-- C7: constructing an instance of an abstract class directly (without
the option disallowing implicit constructors) reports
CannotCreateInstanceOfAbstractClass non-fatally and still produces the
class-instance type (the operation does not return an error result);
the scope's this binding is set to the class instance. -/
theorem c7_abstract_class_new (ctx : Ctx) (mode : ReevalMode) (name : String)
    (args : List ArgExprM) (arg_types spread_arg_types : List TypeOrSpread)
    (targs : Option (List Ty)) (ann : Option Ty) (opts : CallOpts) (s : St)
    (hopts : opts.disallow_invoking_implicit_constructors = false) :
    extract ctx mode (Ty.classDef name true) .New args arg_types spread_arg_types
        targs ann opts s =
      (Except.ok (Ty.classInstance name true),
       { s with
           this? := some (Ty.classInstance name true),
           diags := s.diags ++ [ErrKind.cannotCreateInstanceOfAbstractClass] }) := by
  simp [extract, extract_gen, hopts, report]

/-- Witness for the abstract-class theorem at a concrete class. -/
theorem c7_abstract_class_new_witness :
    ({} : CallOpts).disallow_invoking_implicit_constructors = false ∧
    extract {} .noReeval (Ty.classDef "A" true) .New [] [] [] none none {} {} =
      (Except.ok (Ty.classInstance "A" true),
       { ({} : St) with
           this? := some (Ty.classInstance "A" true),
           diags := ([] : List ErrKind) ++ [ErrKind.cannotCreateInstanceOfAbstractClass] }) :=
  ⟨rfl, c7_abstract_class_new {} .noReeval "A" [] [] [] none none {} {} rfl⟩

/-- C6 counterexample: for the rest-tuple signature (...args: [string,
number]), the call f(1, "x") (both arguments mismatching) produces
exactly one WrongArgType diagnostic, at the first argument's span - not
one per mismatching argument: the failure on the first tuple element
skips the remaining elements of that rest tuple. -/
theorem c6_counterexample :
    validate_arg_types tupleRestParams
        [⟨10, none, Ty.number⟩, ⟨11, none, Ty.string⟩] false =
      [ErrKind.wrongArgType 10 (AErr.assignFailed Ty.string Ty.number)] ∧
    (validate_arg_types tupleRestParams
        [⟨10, none, Ty.number⟩, ⟨11, none, Ty.string⟩] false).length ≠ 2 := by
  exact ⟨rfl, by decide⟩

/-- C6 as amended: for (...args: [string, number]), f("x", 1) succeeds
with no diagnostics, assigning string to the first element and number to
the second; f(1, "x") reports one WrongArgType at the first argument's
span (a first-element failure skips the remaining tuple elements); when
the first element matches, each later mismatching argument gets its own
WrongArgType at its span, as f("x", true) shows. -/
theorem c6_tuple_rest_arg_validation :
    validate_arg_types tupleRestParams
        [⟨10, none, Ty.string⟩, ⟨11, none, Ty.number⟩] false = [] ∧
    validate_arg_types tupleRestParams
        [⟨10, none, Ty.number⟩, ⟨11, none, Ty.string⟩] false =
      [ErrKind.wrongArgType 10 (AErr.assignFailed Ty.string Ty.number)] ∧
    validate_arg_types tupleRestParams
        [⟨10, none, Ty.string⟩, ⟨11, none, Ty.boolean⟩] false =
      [ErrKind.wrongArgType 11 (AErr.assignFailed Ty.number Ty.boolean)] :=
  ⟨rfl, rfl, rfl⟩

/-- C3: the generic round trip for declare function id with parameter x
of type T returning T.  Calling it with a number argument infers T =
number (inference result shown on the modelled inference) and the
validated call produces number; calling it with no argument leaves T in
the errored set, and the errored parameter is substituted with unknown
in the expanded return type instead of aborting: the call still
produces the type unknown. -/
theorem c3_generic_round_trip :
    (validate_rcall_expr {} idCallOne none {}).1 = Except.ok Ty.number ∧
    (validate_rcall_expr {} idCallZero none {}).1 = Except.ok Ty.unknown ∧
    infer_arg_types none ["T"] [(Pat.ident false false, true, Ty.param "T")]
        [⟨1, none, Ty.number⟩] = ⟨[("T", Ty.number)], []⟩ ∧
    infer_arg_types none ["T"] [(Pat.ident false false, true, Ty.param "T")] [] =
      ⟨[], ["T"]⟩ :=
  ⟨rfl, rfl, rfl, rfl⟩

/-- C5 counterexample: spreading an argument whose type is neither a
tuple, the any keyword, nor an array - here a string, an iterable -
takes the iterator-fallback path, which keeps the spread marker on the
returned entry: the entry has spread different from none although its
type is not an array, refuting that the tuple-spread-into-rest/array
path is the only one producing spread entries. -/
theorem c5_counterexample :
    spread_args [TypeOrSpread.mk 5 (some 4) Ty.string] false =
      (Except.ok [TypeOrSpread.mk 5 (some 4) Ty.string], true) ∧
    (TypeOrSpread.mk 5 (some 4) Ty.string).spread ≠ none ∧
    (∀ e, (TypeOrSpread.mk 5 (some 4) Ty.string).ty ≠ Ty.array e) :=
  ⟨rfl, by simp, fun e h => by cases h⟩

/-! Properties of the stable sort by outcome. -/

/-- Filtering a list to the elements with a given outcome key. -/
def filterKey {α : Type _} (f : α → ArgCheckResult) (k : ArgCheckResult)
    (l : List α) : List α :=
  l.filter (fun x => decide (f x = k))

theorem mem_filterKey {α : Type _} {f : α → ArgCheckResult} {k : ArgCheckResult}
    {a : α} {l : List α} (h : a ∈ filterKey f k l) : f a = k := by
  simp only [filterKey, List.mem_filter, decide_eq_true_eq] at h
  exact h.2

theorem filterKey_cons {α : Type _} (f : α → ArgCheckResult) (k : ArgCheckResult)
    (x : α) (xs : List α) :
    filterKey f k (x :: xs) =
      if f x = k then x :: filterKey f k xs else filterKey f k xs := by
  by_cases h : f x = k <;> simp [filterKey, h]

theorem insert_by_key_low {α : Type _} (f : α → ArgCheckResult) (x : α)
    (A r : List α) (h : ∀ a ∈ A, (f a).toNat < (f x).toNat) :
    insert_by_key f x (A ++ r) = A ++ insert_by_key f x r := by
  induction A with
  | nil => rfl
  | cons a A ih =>
    simp only [List.cons_append, insert_by_key, List.append_eq]
    rw [if_pos (h a (by simp)), ih (fun b hb => h b (by simp [hb]))]

theorem insert_by_key_high {α : Type _} (f : α → ArgCheckResult) (x : α)
    (l : List α) (h : ∀ a ∈ l, ¬ (f a).toNat < (f x).toNat) :
    insert_by_key f x l = x :: l := by
  cases l with
  | nil => rfl
  | cons a l =>
    simp only [insert_by_key]
    rw [if_neg (h a (by simp))]

theorem mem_insert_by_key {α : Type _} (f : α → ArgCheckResult) (x a : α)
    (l : List α) : a ∈ insert_by_key f x l ↔ a = x ∨ a ∈ l := by
  induction l with
  | nil => simp [insert_by_key]
  | cons y ys ih =>
    simp only [insert_by_key]
    by_cases h : (f y).toNat < (f x).toNat
    · rw [if_pos h]
      simp only [List.mem_cons, ih]
      tauto
    · rw [if_neg h]
      simp only [List.mem_cons]

theorem length_insert_by_key {α : Type _} (f : α → ArgCheckResult) (x : α)
    (l : List α) : (insert_by_key f x l).length = l.length + 1 := by
  induction l with
  | nil => rfl
  | cons y ys ih =>
    simp only [insert_by_key]
    split <;> simp [ih]

theorem mem_sort_by_key {α : Type _} (f : α → ArgCheckResult) (a : α)
    (l : List α) : a ∈ sort_by_key f l ↔ a ∈ l := by
  induction l with
  | nil => simp [sort_by_key]
  | cons x xs ih =>
    simp only [sort_by_key, mem_insert_by_key, List.mem_cons, ih]

theorem length_sort_by_key {α : Type _} (f : α → ArgCheckResult) (l : List α) :
    (sort_by_key f l).length = l.length := by
  induction l with
  | nil => rfl
  | cons x xs ih => simp [sort_by_key, length_insert_by_key, ih]

/-- The partition characterization of the stable sort: the sorted list
is the Exact elements, then the MayBe elements, then the ArgTypeMismatch
elements, then the WrongArgCount elements, each group in original
order.  This simultaneously expresses sortedness (by ordinal) and
stability (equal keys keep their relative order). -/
theorem sort_by_key_partition {α : Type _} (f : α → ArgCheckResult) (l : List α) :
    sort_by_key f l =
      filterKey f .Exact l ++ filterKey f .MayBe l ++
        filterKey f .ArgTypeMismatch l ++ filterKey f .WrongArgCount l := by
  induction l with
  | nil => rfl
  | cons x xs ih =>
    have hE : ∀ a ∈ filterKey f .Exact xs, (f a).toNat = 0 := fun a ha => by
      rw [mem_filterKey ha]; rfl
    have hM : ∀ a ∈ filterKey f .MayBe xs, (f a).toNat = 1 := fun a ha => by
      rw [mem_filterKey ha]; rfl
    have hA : ∀ a ∈ filterKey f .ArgTypeMismatch xs, (f a).toNat = 2 := fun a ha => by
      rw [mem_filterKey ha]; rfl
    have hW : ∀ a ∈ filterKey f .WrongArgCount xs, (f a).toNat = 3 := fun a ha => by
      rw [mem_filterKey ha]; rfl
    simp only [sort_by_key, ih]
    cases hfx : f x with
    | Exact =>
      have hx : (f x).toNat = 0 := by rw [hfx]; rfl
      rw [insert_by_key_high]
      · simp [filterKey_cons, hfx]
      · intro a ha
        simp only [List.append_assoc, List.mem_append] at ha
        rcases ha with ha | ha | ha | ha
        · have := hE a ha; omega
        · have := hM a ha; omega
        · have := hA a ha; omega
        · have := hW a ha; omega
    | MayBe =>
      have hx : (f x).toNat = 1 := by rw [hfx]; rfl
      rw [show filterKey f .Exact xs ++ filterKey f .MayBe xs ++
            filterKey f .ArgTypeMismatch xs ++ filterKey f .WrongArgCount xs =
          filterKey f .Exact xs ++ (filterKey f .MayBe xs ++
            filterKey f .ArgTypeMismatch xs ++ filterKey f .WrongArgCount xs) by
        simp [List.append_assoc]]
      rw [insert_by_key_low]
      · rw [insert_by_key_high]
        · simp [filterKey_cons, hfx]
        · intro a ha
          simp only [List.append_assoc, List.mem_append] at ha
          rcases ha with ha | ha | ha
          · have := hM a ha; omega
          · have := hA a ha; omega
          · have := hW a ha; omega
      · intro a ha
        have := hE a ha; omega
    | ArgTypeMismatch =>
      have hx : (f x).toNat = 2 := by rw [hfx]; rfl
      rw [show filterKey f .Exact xs ++ filterKey f .MayBe xs ++
            filterKey f .ArgTypeMismatch xs ++ filterKey f .WrongArgCount xs =
          (filterKey f .Exact xs ++ filterKey f .MayBe xs) ++
            (filterKey f .ArgTypeMismatch xs ++ filterKey f .WrongArgCount xs) by
        simp [List.append_assoc]]
      rw [insert_by_key_low]
      · rw [insert_by_key_high]
        · simp [filterKey_cons, hfx, List.append_assoc]
        · intro a ha
          simp only [List.mem_append] at ha
          rcases ha with ha | ha
          · have := hA a ha; omega
          · have := hW a ha; omega
      · intro a ha
        simp only [List.mem_append] at ha
        rcases ha with ha | ha
        · have := hE a ha; omega
        · have := hM a ha; omega
    | WrongArgCount =>
      have hx : (f x).toNat = 3 := by rw [hfx]; rfl
      rw [show filterKey f .Exact xs ++ filterKey f .MayBe xs ++
            filterKey f .ArgTypeMismatch xs ++ filterKey f .WrongArgCount xs =
          (filterKey f .Exact xs ++ filterKey f .MayBe xs ++
            filterKey f .ArgTypeMismatch xs) ++ filterKey f .WrongArgCount xs by
        simp [List.append_assoc]]
      rw [insert_by_key_low]
      · rw [insert_by_key_high]
        · simp [filterKey_cons, hfx, List.append_assoc]
        · intro a ha
          have := hW a ha; omega
      · intro a ha
        simp only [List.append_assoc, List.mem_append] at ha
        rcases ha with ha | ha | ha
        · have := hE a ha; omega
        · have := hM a ha; omega
        · have := hA a ha; omega

/-- C8: ArgCheckResult is totally ordered with Exact below MayBe below
ArgTypeMismatch below WrongArgCount (best to worst: totality,
antisymmetry and transitivity hold); sorting any candidate list by this
classification is stable and sorted (the partition characterization);
and of the two candidates (x: number) producing A and (x: string)
producing B, a call with one number argument selects the first and
produces A. -/
theorem c8_arg_check_result_order :
    (ArgCheckResult.lt .Exact .MayBe ∧ ArgCheckResult.lt .MayBe .ArgTypeMismatch ∧
     ArgCheckResult.lt .ArgTypeMismatch .WrongArgCount) ∧
    (∀ a b : ArgCheckResult, ArgCheckResult.le a b ∨ ArgCheckResult.le b a) ∧
    (∀ a b : ArgCheckResult,
      ArgCheckResult.le a b → ArgCheckResult.le b a → a = b) ∧
    (∀ a b c : ArgCheckResult,
      ArgCheckResult.le a b → ArgCheckResult.le b c → ArgCheckResult.le a c) ∧
    (∀ (α : Type) (f : α → ArgCheckResult) (l : List α),
      sort_by_key f l =
        filterKey f .Exact l ++ filterKey f .MayBe l ++
          filterKey f .ArgTypeMismatch l ++ filterKey f .WrongArgCount l) ∧
    select_and_invoke {} .Call .noReeval [candNumA, candStrB] none [argNum]
        [tosNum] [tosNum] none {} {} =
      (Except.ok (some (Ty.named "A")), {}) := by
  refine ⟨⟨show (0:Nat) < 1 by omega, show (1:Nat) < 2 by omega,
      show (2:Nat) < 3 by omega⟩, ?_, ?_, ?_, ?_, rfl⟩
  · intro a b
    exact Nat.le_total a.toNat b.toNat
  · intro a b h1 h2
    have h3 : a.toNat = b.toNat := Nat.le_antisymm h1 h2
    cases a <;> cases b <;> simp [ArgCheckResult.toNat] at h3 <;> rfl
  · intro a b c h1 h2
    exact Nat.le_trans h1 h2
  · intro α f l
    exact sort_by_key_partition f l

/-- Witness for the outcome-order theorem: the order facts applied at
concrete outcomes, discharging the hypotheses of transitivity. -/
theorem c8_arg_check_result_order_witness :
    ArgCheckResult.le .Exact .MayBe ∧
    ArgCheckResult.le .MayBe .ArgTypeMismatch ∧
    ArgCheckResult.le .Exact .ArgTypeMismatch :=
  ⟨Nat.le_of_lt c8_arg_check_result_order.1.1,
   Nat.le_of_lt c8_arg_check_result_order.1.2.1,
   c8_arg_check_result_order.2.2.2.1 .Exact .MayBe .ArgTypeMismatch
     (Nat.le_of_lt c8_arg_check_result_order.1.1)
     (Nat.le_of_lt c8_arg_check_result_order.1.2.1)⟩

/-- C2 counterexample: a candidate selection run with the overload check
disabled (skip_check_for_overloads, as passed by get_best_return_type
and by the intersection path) does not reject two candidates that both
classify as ArgTypeMismatch: with candidates (x: number) producing A and
(x: boolean) producing B and a string argument, both candidates
classify as ArgTypeMismatch, yet the selection returns the best
candidate's type A (with a non-fatal WrongArgType diagnostic) instead of
a NoMatchingOverload error. -/
theorem c2_counterexample :
    check_call_args {} false candNumA.type_params candNumA.params none [argStr]
        [tosStr] = ArgCheckResult.ArgTypeMismatch ∧
    check_call_args {} false candBoolB.type_params candBoolB.params none [argStr]
        [tosStr] = ArgCheckResult.ArgTypeMismatch ∧
    select_and_invoke {} .Call .noReeval [candNumA, candBoolB] none [argStr]
        [tosStr] [tosStr] none ⟨true⟩ {} =
      (Except.ok (some (Ty.named "A")),
       { diags := [ErrKind.wrongArgType 0 (AErr.assignFailed Ty.number Ty.string)] }) :=
  ⟨rfl, rfl, rfl⟩

/-- C2 as amended: when the selection runs with the overload check
enabled (skip_check_for_overloads false, as at the type-element and
class-member selection sites), more than one candidate exists and every
candidate classifies as ArgTypeMismatch or WrongArgCount, the call is
rejected with NoMatchingOverload rather than returning a guessed type. -/
theorem c2_no_matching_overload (ctx : Ctx) (kind : ExtractKind) (mode : ReevalMode)
    (cands : List CallCandidate) (targs : Option (List Ty)) (args : List ArgExprM)
    (arg_types spread_arg_types : List TypeOrSpread) (ann : Option Ty)
    (opts : SelectOpts) (s : St)
    (hskip : opts.skip_check_for_overloads = false)
    (hlen : 1 < cands.length)
    (hall : ∀ c ∈ cands,
      check_call_args ctx s.is_call_arg_count_unknown c.type_params c.params targs
          args arg_types = ArgCheckResult.ArgTypeMismatch ∨
      check_call_args ctx s.is_call_arg_count_unknown c.type_params c.params targs
          args arg_types = ArgCheckResult.WrongArgCount) :
    select_and_invoke ctx kind mode cands targs args arg_types spread_arg_types ann
        opts s = (Except.error ErrKind.noMatchingOverload, s) := by
  have hne : cands.isEmpty = false := by
    cases cands with
    | nil => simp at hlen
    | cons a l => rfl
  have hlen2 :
      (sort_by_key (fun p : CallCandidate × ArgCheckResult => p.2)
        (cands.map (fun c =>
          (c, check_call_args ctx s.is_call_arg_count_unknown c.type_params c.params
                targs args arg_types)))).length = cands.length := by
    rw [length_sort_by_key, List.length_map]
  have hallb :
      (sort_by_key (fun p : CallCandidate × ArgCheckResult => p.2)
        (cands.map (fun c =>
          (c, check_call_args ctx s.is_call_arg_count_unknown c.type_params c.params
                targs args arg_types)))).all (fun p =>
            p.2 matches ArgCheckResult.WrongArgCount | ArgCheckResult.ArgTypeMismatch) =
        true := by
    rw [List.all_eq_true]
    intro p hp
    rw [mem_sort_by_key, List.mem_map] at hp
    obtain ⟨c, hc, rfl⟩ := hp
    rcases hall c hc with h | h <;> simp [h]
  simp only [select_and_invoke, select_and_invoke_gen, hne, hskip, hlen2, hallb]
  simp [hlen]

/-- Witness for the amended overload-rejection theorem at the two
concrete candidates called with a string argument. -/
theorem c2_no_matching_overload_witness :
    ({} : SelectOpts).skip_check_for_overloads = false ∧
    1 < [candNumA, candBoolB].length ∧
    select_and_invoke {} .Call .noReeval [candNumA, candBoolB] none [argStr]
        [tosStr] [tosStr] none {} {} =
      (Except.error ErrKind.noMatchingOverload, {}) := by
  refine ⟨rfl, by decide, ?_⟩
  exact c2_no_matching_overload {} .Call .noReeval [candNumA, candBoolB] none
    [argStr] [tosStr] [tosStr] none {} {} rfl (by decide)
    (by
      intro c hc
      simp only [List.mem_cons, List.not_mem_nil, or_false] at hc
      rcases hc with rfl | rfl
      · left; rfl
      · left; rfl)

/-- C4: arity validation accepts a spread-free call exactly when the
argument count lies between the computed bounds.  For (a: T, b?: T),
calls with 1 or 2 arguments pass and calls with 0 or 3 or more fail with
ExpectedNArgsButGotM carrying min 1 and max 2; for (a: T, ...rest: T[])
any call with at least 1 argument passes and 0 arguments fails with
ExpectedAtLeastNArgsButGotM carrying min 1 (the unbounded-max error
kind). -/
theorem c4_arity_boundaries (args : List ArgExprM)
    (hns : ∀ a ∈ args, a.spread = none) :
    (((args.length = 1 ∨ args.length = 2) →
        validate_arg_count {} paramsOptPair args = Except.ok ()) ∧
     ((args.length = 0 ∨ 3 ≤ args.length) →
        validate_arg_count {} paramsOptPair args =
          Except.error (ErrKind.expectedNArgsButGotM 1 (some 2)))) ∧
    ((1 ≤ args.length →
        validate_arg_count {} paramsRest args = Except.ok ()) ∧
     (args.length = 0 →
        validate_arg_count {} paramsRest args =
          Except.error (ErrKind.expectedAtLeastNArgsButGotM 1))) := by
  have hsp : args.any (fun a => a.spread.isSome) = false := by
    rw [List.any_eq_false]
    intro a ha
    simp [hns a ha]
  have h1 : arity_bounds paramsOptPair = (1, some 2) := rfl
  have h2 : arity_bounds paramsRest = (1, none) := rfl
  refine ⟨⟨?_, ?_⟩, ?_, ?_⟩
  · intro h
    rcases h with h | h <;> simp [validate_arg_count, h1, hsp, h]
  · intro h
    rcases h with h | h
    · simp [validate_arg_count, h1, hsp, h]
    · have hne : ¬ (args.length ≤ 2) := by omega
      have hge : 1 ≤ args.length := by omega
      simp [validate_arg_count, h1, hsp, hne, hge]
  · intro h
    simp [validate_arg_count, h2, hsp, h]
  · intro h
    simp [validate_arg_count, h2, hsp, h]

/-- Witness for the arity-boundaries theorem at concrete argument
lists. -/
theorem c4_arity_boundaries_witness :
    (∀ a ∈ [ArgExprM.mk 7 none Ty.number []], a.spread = none) ∧
    validate_arg_count {} paramsOptPair [ArgExprM.mk 7 none Ty.number []] =
      Except.ok () ∧
    validate_arg_count {} paramsOptPair [] =
      Except.error (ErrKind.expectedNArgsButGotM 1 (some 2)) ∧
    validate_arg_count {} paramsRest [ArgExprM.mk 7 none Ty.number []] =
      Except.ok () ∧
    validate_arg_count {} paramsRest [] =
      Except.error (ErrKind.expectedAtLeastNArgsButGotM 1) := by
  have h : ∀ a ∈ [ArgExprM.mk 7 none Ty.number []], a.spread = none := by simp
  have h0 : ∀ a ∈ ([] : List ArgExprM), a.spread = none := by simp
  exact ⟨h, (c4_arity_boundaries _ h).1.1 (Or.inl rfl),
    (c4_arity_boundaries [] h0).1.2 (Or.inl rfl),
    (c4_arity_boundaries _ h).2.1 (by simp),
    (c4_arity_boundaries [] h0).2.2 rfl⟩

/-- Once the per-entry loop of spread_args runs under an already-set
arity-unknown flag, the flag stays set in its result. -/
theorem spread_args_go_flag_mono (args : List TypeOrSpread) :
    (spread_args_go args true).2 = true := by
  induction args with
  | nil => rfl
  | cons a rest ih =>
    rcases hr : spread_args_go rest true with ⟨res, flag⟩
    have : flag = true := by rw [← ih, hr]
    subst this
    simp only [spread_args_go]
    rcases a.spread with _ | sp
    · simp only [hr]
      cases res <;> rfl
    · cases hty : a.ty <;>
        simp only [hr, get_iterator_element_type] <;>
        (try cases res) <;> rfl

/-- Every entry the per-entry loop returns has no spread marker unless
the resulting arity-unknown flag is set. -/
theorem spread_args_go_spread_entries (args : List TypeOrSpread) (flag : Bool)
    (res : List TypeOrSpread) (flag' : Bool)
    (h : spread_args_go args flag = (Except.ok res, flag')) :
    ∀ out ∈ res, out.spread = none ∨ flag' = true := by
  induction args generalizing flag res flag' with
  | nil =>
    simp only [spread_args_go, Prod.mk.injEq] at h
    obtain ⟨h1, _⟩ := h
    cases h1
    simp
  | cons a rest ih =>
    rcases hsp : a.spread with _ | sp
    · simp only [spread_args_go, hsp] at h
      rcases hr : spread_args_go rest flag with ⟨r', f'⟩
      rw [hr] at h
      cases r' with
      | error e => simp at h
      | ok tail =>
        simp only [Prod.mk.injEq] at h
        obtain ⟨h1, h2⟩ := h
        cases h1
        subst h2
        intro out hout
        rcases List.mem_cons.mp hout with rfl | hmem
        · exact Or.inl hsp
        · exact ih flag tail f' hr out hmem
    · simp only [spread_args_go, hsp] at h
      cases hty : a.ty with
      | tuple elems =>
        rw [hty] at h
        rcases hr : spread_args_go rest flag with ⟨r', f'⟩
        rw [hr] at h
        cases r' with
        | error e => simp at h
        | ok tail =>
          simp only [Prod.mk.injEq] at h
          obtain ⟨h1, h2⟩ := h
          cases h1
          subst h2
          intro out hout
          rcases List.mem_append.mp hout with hmem | hmem
          · obtain ⟨ty, _, rfl⟩ := List.mem_map.mp hmem
            exact Or.inl rfl
          · exact ih flag tail f' hr out hmem
      | any =>
        rw [hty] at h
        rcases hr : spread_args_go rest true with ⟨r', f'⟩
        rw [hr] at h
        cases r' with
        | error e => simp at h
        | ok tail =>
          simp only [Prod.mk.injEq] at h
          obtain ⟨h1, h2⟩ := h
          cases h1
          subst h2
          have hf : f' = true := by rw [← spread_args_go_flag_mono rest, hr]
          intro out hout
          exact Or.inr hf
      | array elemTy =>
        rw [hty] at h
        rcases hr : spread_args_go rest true with ⟨r', f'⟩
        rw [hr] at h
        cases r' with
        | error e => simp at h
        | ok tail =>
          simp only [Prod.mk.injEq] at h
          obtain ⟨h1, h2⟩ := h
          cases h1
          subst h2
          have hf : f' = true := by rw [← spread_args_go_flag_mono rest, hr]
          intro out hout
          exact Or.inr hf
      | _ =>
        rw [hty] at h
        simp only [get_iterator_element_type] at h
        first
        | (simp at h)
        | (rcases hr : spread_args_go rest true with ⟨r', f'⟩
           rw [hr] at h
           cases r' with
           | error e => simp at h
           | ok tail =>
             simp only [Prod.mk.injEq] at h
             obtain ⟨h1, h2⟩ := h
             cases h1
             subst h2
             have hf : f' = true := by rw [← spread_args_go_flag_mono rest, hr]
             intro out hout
             exact Or.inr hf)

/-- C5 as amended: the per-entry behavior of spread preprocessing - a
non-spread entry passes through unchanged; a spread entry normalizing to
a tuple is expanded into one non-spread entry per element; to the any
keyword marks arity unknown and keeps one non-spread entry of type any;
to an array marks arity unknown and keeps the spread entry; any other
spread entry marks arity unknown and keeps its spread marker with the
iterator element type - and consequently every returned entry has no
spread marker except on the paths that marked the call's arity
statically unknown (the array path and the iterator-fallback path). -/
theorem c5_spread_args_behavior :
    (∀ (a : TypeOrSpread) (flag : Bool), a.spread = none →
      spread_args [a] flag = (Except.ok [a], flag)) ∧
    (∀ (sp ssp : Nat) (elems : List Ty) (flag : Bool),
      spread_args [⟨sp, some ssp, Ty.tuple elems⟩] flag =
        (Except.ok (elems.map (fun ty => TypeOrSpread.mk ssp none ty)), flag)) ∧
    (∀ (sp ssp : Nat) (flag : Bool),
      spread_args [⟨sp, some ssp, Ty.any⟩] flag =
        (Except.ok [⟨sp, none, Ty.any⟩], true)) ∧
    (∀ (sp ssp : Nat) (e : Ty) (flag : Bool),
      spread_args [⟨sp, some ssp, Ty.array e⟩] flag =
        (Except.ok [⟨sp, some ssp, Ty.array e⟩], true)) ∧
    (∀ (sp ssp : Nat) (t elem : Ty) (flag : Bool),
      (∀ es, t ≠ Ty.tuple es) → t ≠ Ty.any → (∀ e, t ≠ Ty.array e) →
      get_iterator_element_type sp t = Except.ok elem →
      spread_args [⟨sp, some ssp, t⟩] flag =
        (Except.ok [⟨sp, some ssp, elem⟩], true)) ∧
    (∀ (args : List TypeOrSpread) (flag : Bool) (res : List TypeOrSpread)
        (flag' : Bool), spread_args args flag = (Except.ok res, flag') →
      ∀ out ∈ res, out.spread = none ∨ flag' = true) := by
  refine ⟨?_, ?_, ?_, ?_, ?_, ?_⟩
  · intro a flag h
    simp [spread_args, h]
  · intro sp ssp elems flag
    simp [spread_args, spread_args_go]
  · intro sp ssp flag
    simp [spread_args, spread_args_go]
  · intro sp ssp e flag
    simp [spread_args, spread_args_go]
  · intro sp ssp t elem flag h1 h2 h3 h4
    cases t <;>
      first
      | exact absurd rfl (h1 _)
      | exact absurd rfl h2
      | exact absurd rfl (h3 _)
      | (simp only [get_iterator_element_type, Except.ok.injEq] at h4
         subst h4
         simp [spread_args, spread_args_go, get_iterator_element_type])
      | exact Except.noConfusion h4
  · intro args flag res flag' h out hout
    by_cases hany : args.any (fun a => a.spread.isSome) = true
    · simp only [spread_args] at h
      rw [if_pos hany] at h
      exact spread_args_go_spread_entries args flag res flag' h out hout
    · simp only [spread_args] at h
      rw [if_neg hany] at h
      simp only [Prod.mk.injEq] at h
      obtain ⟨h1, h2⟩ := h
      cases h1
      left
      have := List.any_eq_false.mp (Bool.not_eq_true _ ▸ hany) out hout
      simpa using this

/-- Witness for the spread-preprocessing theorem: a spread string
argument (the iterator fallback) and the invariant at its result. -/
theorem c5_spread_args_behavior_witness :
    (∀ es, Ty.string ≠ Ty.tuple es) ∧ Ty.string ≠ Ty.any ∧
    (∀ e, Ty.string ≠ Ty.array e) ∧
    get_iterator_element_type 5 Ty.string = Except.ok Ty.string ∧
    spread_args [⟨5, some 4, Ty.string⟩] false =
      (Except.ok [⟨5, some 4, Ty.string⟩], true) ∧
    (∀ out ∈ [TypeOrSpread.mk 5 (some 4) Ty.string],
      out.spread = none ∨ True) := by
  refine ⟨?_, ?_, ?_, rfl, ?_, ?_⟩
  · intro es h
    cases h
  · intro h
    cases h
  · intro e h
    cases h
  · exact c5_spread_args_behavior.2.2.2.2.1 5 4 Ty.string Ty.string false
      (fun es h => by cases h) (fun h => by cases h) (fun e h => by cases h) rfl
  · intro out hout
    rcases c5_spread_args_behavior.2.2.2.2.2 [⟨5, some 4, Ty.string⟩] false
        [⟨5, some 4, Ty.string⟩] true rfl out hout with h | h
    · exact Or.inl h
    · exact Or.inr trivial


/-- The continuation of the generic return-type path only appends
diagnostics: the validator-entry counter is untouched. -/
theorem grt_cont_entries (ctx kind tps inferred ept na0 ats ret dmap ann s) :
    (grt_cont ctx kind tps inferred ept na0 ats ret dmap ann s).2.validator_entries
      = s.validator_entries := by
  simp [grt_cont]

/-- The continuation of the generic return-type path only appends
diagnostics: the re-evaluation counter is untouched. -/
theorem grt_cont_reevals (ctx kind tps inferred ept na0 ats ret dmap ann s) :
    (grt_cont ctx kind tps inferred ept na0 ats ret dmap ann s).2.reeval_count
      = s.reeval_count := by
  simp [grt_cont]

/-- With the re-evaluating flag set, the return-type resolver never
consults the re-evaluation handler, so it enters no validator. -/
theorem grt_entries_re (onReeval : ReevalHandler) (ctx : Ctx) (kind : ExtractKind)
    (mode : ReevalMode) (tps : Option (List String)) (params : List FnParam)
    (ret : Ty) (targs : Option (List Ty)) (args : List ArgExprM)
    (ats sats : List TypeOrSpread) (ann : Option Ty) (s : St)
    (h : ctx.reevaluating_call_or_new = true) :
    (get_return_type_gen onReeval ctx kind mode tps params ret targs args ats sats
        ann s).2.validator_entries = s.validator_entries := by
  cases tps <;>
    simp [get_return_type_gen, h, grt_cont_entries]

/-- With the re-evaluating flag set, the return-type resolver performs
no guarded retry. -/
theorem grt_reevals_re (onReeval : ReevalHandler) (ctx : Ctx) (kind : ExtractKind)
    (mode : ReevalMode) (tps : Option (List String)) (params : List FnParam)
    (ret : Ty) (targs : Option (List Ty)) (args : List ArgExprM)
    (ats sats : List TypeOrSpread) (ann : Option Ty) (s : St)
    (h : ctx.reevaluating_call_or_new = true) :
    (get_return_type_gen onReeval ctx kind mode tps params ret targs args ats sats
        ann s).2.reeval_count = s.reeval_count := by
  cases tps <;>
    simp [get_return_type_gen, h, grt_cont_reevals]

/-- With the re-evaluating flag set, extraction enters no validator
(for any callee shape and any handler). -/
theorem extract_entries_re (onReeval : ReevalHandler) (ctx : Ctx) (mode : ReevalMode)
    (ty : Ty) (kind : ExtractKind) (args : List ArgExprM)
    (ats sats : List TypeOrSpread) (targs : Option (List Ty)) (ann : Option Ty)
    (opts : CallOpts) (s : St) (h : ctx.reevaluating_call_or_new = true) :
    (extract_gen onReeval ctx mode ty kind args ats sats targs ann opts
        s).2.validator_entries = s.validator_entries := by
  cases kind <;> cases ty <;>
    first
    | (simp [extract_gen, extract_main, grt_entries_re, h, report]; done)
    | (simp only [extract_gen, extract_main]
       split_ifs <;> simp [grt_entries_re, h, report])

/-- With the re-evaluating flag set, extraction performs no guarded
retry (for any callee shape and any handler). -/
theorem extract_reevals_re (onReeval : ReevalHandler) (ctx : Ctx) (mode : ReevalMode)
    (ty : Ty) (kind : ExtractKind) (args : List ArgExprM)
    (ats sats : List TypeOrSpread) (targs : Option (List Ty)) (ann : Option Ty)
    (opts : CallOpts) (s : St) (h : ctx.reevaluating_call_or_new = true) :
    (extract_gen onReeval ctx mode ty kind args ats sats targs ann opts
        s).2.reeval_count = s.reeval_count := by
  cases kind <;> cases ty <;>
    first
    | (simp [extract_gen, extract_main, grt_reevals_re, h, report]; done)
    | (simp only [extract_gen, extract_main]
       split_ifs <;> simp [grt_reevals_re, h, report])

/-- With the re-evaluating flag set, one run of the call/new validator
enters the validator exactly once: the recursive pass falls through at
the guard instead of recursing again. -/
theorem vcng_entries_re (onReeval : ReevalHandler) (kind : ExtractKind) (ctx : Ctx)
    (e : CallExprM) (ann : Option Ty) (s : St)
    (h : ctx.reevaluating_call_or_new = true) :
    (validate_call_new_gen onReeval kind ctx e ann s).2.validator_entries =
      s.validator_entries + 1 := by
  obtain ⟨cal, fnx, args, targs⟩ := e
  cases cal with
  | superC =>
    cases kind with
    | Call =>
      simp only [validate_call_new_gen, report, reportAll, validate_args]
      split_ifs <;> simp
    | New => simp [validate_call_new_gen]
  | expr t =>
    cases kind <;>
    · simp only [validate_call_new_gen]
      split <;> (try split_ifs) <;>
        simp_all [extract_entries_re, report, reportAll]

/-- With the re-evaluating flag set, one run of the call/new validator
performs no guarded retry. -/
theorem vcng_reevals_re (onReeval : ReevalHandler) (kind : ExtractKind) (ctx : Ctx)
    (e : CallExprM) (ann : Option Ty) (s : St)
    (h : ctx.reevaluating_call_or_new = true) :
    (validate_call_new_gen onReeval kind ctx e ann s).2.reeval_count =
      s.reeval_count := by
  obtain ⟨cal, fnx, args, targs⟩ := e
  cases cal with
  | superC =>
    cases kind with
    | Call =>
      simp only [validate_call_new_gen, report, reportAll, validate_args]
      split_ifs <;> simp
    | New => simp [validate_call_new_gen]
  | expr t =>
    cases kind <;>
    · simp only [validate_call_new_gen]
      split <;> (try split_ifs) <;>
        simp_all [extract_reevals_re, report, reportAll]

/-- The re-evaluation action under a set flag enters the validator at
most once. -/
theorem reevalOnce_entries_re (ctx : Ctx) (mode : ReevalMode) (ann : Option Ty)
    (s : St) (h : ctx.reevaluating_call_or_new = true) :
    (reevalOnce ctx mode ann s).2.validator_entries ≤ s.validator_entries + 1 := by
  cases mode <;> simp [reevalOnce, vcng_entries_re, h]

/-- The re-evaluation action under a set flag performs no further
guarded retry. -/
theorem reevalOnce_reevals_re (ctx : Ctx) (mode : ReevalMode) (ann : Option Ty)
    (s : St) (h : ctx.reevaluating_call_or_new = true) :
    (reevalOnce ctx mode ann s).2.reeval_count = s.reeval_count := by
  cases mode <;> simp [reevalOnce, vcng_reevals_re, h]

/-- For any context, the return-type resolver enters the validator at
most once more and retries at most once. -/
theorem grt_entries_any (ctx : Ctx) (kind : ExtractKind)
    (mode : ReevalMode) (tps : Option (List String)) (params : List FnParam)
    (ret : Ty) (targs : Option (List Ty)) (args : List ArgExprM)
    (ats sats : List TypeOrSpread) (ann : Option Ty) (s : St) :
    (get_return_type_gen reevalOnce ctx kind mode tps params ret targs args ats sats
        ann s).2.validator_entries ≤ s.validator_entries + 1 ∧
    (get_return_type_gen reevalOnce ctx kind mode tps params ret targs args ats sats
        ann s).2.reeval_count ≤ s.reeval_count + 1 := by
  by_cases h : ctx.reevaluating_call_or_new = true
  · rw [grt_entries_re _ _ _ _ _ _ _ _ _ _ _ _ _ h,
      grt_reevals_re _ _ _ _ _ _ _ _ _ _ _ _ _ h]
    omega
  · have hb : ctx.reevaluating_call_or_new = false := by
      revert h
      cases ctx.reevaluating_call_or_new <;> simp
    cases tps with
    | none =>
      simp [get_return_type_gen]
    | some l =>
      cases mode with
      | noReeval =>
        simp [get_return_type_gen, hb, grt_cont_entries, grt_cont_reevals]
      | call e =>
        simp only [get_return_type_gen, hb, Bool.not_false, if_true]
        constructor
        · exact le_trans (reevalOnce_entries_re _ _ _ _ (by simp)) (by simp)
        · exact le_of_eq ((reevalOnce_reevals_re _ _ _ _ (by simp)).trans (by simp))
      | newE e =>
        simp only [get_return_type_gen, hb, Bool.not_false, if_true]
        constructor
        · exact le_trans (reevalOnce_entries_re _ _ _ _ (by simp)) (by simp)
        · exact le_of_eq ((reevalOnce_reevals_re _ _ _ _ (by simp)).trans (by simp))

/-- For any context, extraction enters the validator at most once more
and retries at most once. -/
theorem extract_counters_any (ctx : Ctx) (mode : ReevalMode) (ty : Ty)
    (kind : ExtractKind) (args : List ArgExprM) (ats sats : List TypeOrSpread)
    (targs : Option (List Ty)) (ann : Option Ty) (opts : CallOpts) (s : St) :
    (extract_gen reevalOnce ctx mode ty kind args ats sats targs ann opts
        s).2.validator_entries ≤ s.validator_entries + 1 ∧
    (extract_gen reevalOnce ctx mode ty kind args ats sats targs ann opts
        s).2.reeval_count ≤ s.reeval_count + 1 := by
  constructor <;>
    (cases kind <;> cases ty <;>
      simp only [extract_gen, extract_main, report] <;> (try split_ifs) <;>
      first
        | (exact le_trans (grt_entries_any _ _ _ _ _ _ _ _ _ _ _ _).1 (by simp))
        | (exact le_trans (grt_entries_any _ _ _ _ _ _ _ _ _ _ _ _).2 (by simp))
        | simp)

/-- C1: re-evaluation of a call/new expression is bounded.  For every
call and new expression, validation enters the call/new expression
validator at most twice and performs the guarded retry (re-invoking the
original call/new expression validator from the return-type resolver)
at most once; and when the context flag reevaluating_call_or_new is
already set, the validator runs exactly once with no retry - the
recursive pass, seeing the flag, falls through instead of recursing
again.  The counters are ghost instrumentation incremented at the
validator entry and at the guarded retry site. -/
theorem c1_reevaluation_bounded (ctx : Ctx) (e : CallExprM) (ann : Option Ty) (s : St) :
    ((validate_rcall_expr ctx e ann s).2.validator_entries ≤
        s.validator_entries + 2 ∧
      (validate_rcall_expr ctx e ann s).2.reeval_count ≤ s.reeval_count + 1 ∧
      (ctx.reevaluating_call_or_new = true →
        (validate_rcall_expr ctx e ann s).2.validator_entries =
            s.validator_entries + 1 ∧
          (validate_rcall_expr ctx e ann s).2.reeval_count = s.reeval_count)) ∧
    ((validate_rnew_expr ctx e ann s).2.validator_entries ≤
        s.validator_entries + 2 ∧
      (validate_rnew_expr ctx e ann s).2.reeval_count ≤ s.reeval_count + 1 ∧
      (ctx.reevaluating_call_or_new = true →
        (validate_rnew_expr ctx e ann s).2.validator_entries =
            s.validator_entries + 1 ∧
          (validate_rnew_expr ctx e ann s).2.reeval_count = s.reeval_count)) := by
  have main : ∀ kind : ExtractKind,
      (validate_call_new_gen reevalOnce kind ctx e ann s).2.validator_entries ≤
        s.validator_entries + 2 ∧
      (validate_call_new_gen reevalOnce kind ctx e ann s).2.reeval_count ≤
        s.reeval_count + 1 := by
    intro kind
    obtain ⟨cal, fnx, args, targs⟩ := e
    cases cal with
    | superC =>
      cases kind with
      | Call =>
        constructor <;>
        · simp only [validate_call_new_gen, report, reportAll, validate_args]
          split_ifs <;> simp
      | New => constructor <;> simp [validate_call_new_gen]
    | expr t =>
      cases kind <;>
      · constructor <;>
        · simp only [validate_call_new_gen]
          split <;> (try split_ifs) <;>
            first
            | (exact le_trans
                (extract_counters_any _ _ _ _ _ _ _ _ _ _ _).1 (by simp))
            | (exact le_trans
                (extract_counters_any _ _ _ _ _ _ _ _ _ _ _).2 (by simp))
            | simp
  refine ⟨⟨(main .Call).1, (main .Call).2, ?_⟩, (main .New).1, (main .New).2, ?_⟩
  · intro h
    exact ⟨vcng_entries_re _ _ _ _ _ _ h, vcng_reevals_re _ _ _ _ _ _ h⟩
  · intro h
    exact ⟨vcng_entries_re _ _ _ _ _ _ h, vcng_reevals_re _ _ _ _ _ _ h⟩

/-- Witness for the re-evaluation bound under an already-set flag at
a concrete generic call. -/
theorem c1_reevaluation_bounded_witness :
    (Ctx.mk true false false).reevaluating_call_or_new = true ∧
    (validate_rcall_expr (Ctx.mk true false false) idCallOne none
        {}).2.validator_entries = 0 + 1 ∧
    (validate_rcall_expr (Ctx.mk true false false) idCallOne none
        {}).2.reeval_count = 0 := by
  refine ⟨rfl, ?_, ?_⟩
  · exact ((c1_reevaluation_bounded (Ctx.mk true false false) idCallOne none
      {}).1.2.2 rfl).1
  · exact ((c1_reevaluation_bounded (Ctx.mk true false false) idCallOne none
      {}).1.2.2 rfl).2

end Stc
